import Mathlib

/-!
Shallow embedding of the acquisition-diff-notify pipeline of the repository
(worker-api `Worker.ts`, the browser `Scraper`, and their collaborators), with
theorems settling the spec's claims about it.

Conventions of the embedding:
* TypeScript arrays become `List`; an out-of-range index (JS `undefined`)
  becomes `Option.none` where the source can actually read past the end.
* External collaborators (storage, webhook, logger, browser pages, collector,
  `JSON.stringify`) are modelled as parameters or as abstract outcome values,
  and the calls the orchestrator makes to them are recorded as events.
* Fallible steps return `Except` or carry explicit outcome parameters.
-/

namespace BabuAbsen

/-- Modelled from the spec: `Lecture` (worker-api `business/Lecture.ts` is not
under `src/`).  The spec says a Lecture carries identifying fields sufficient
for field-by-field equality comparison (title, link, …); the exact field set is
collector-defined, so we fix a representative stable field set. -/
structure Lecture where
  title : String
  link : String
  deriving DecidableEq

/-- `Meeting` from worker-api `business/Meeting.ts` as described by the spec:
an ordered sequence of Lectures, plus a subject reference and a title. -/
structure Meeting where
  subject : String
  title : String
  lectures : List Lecture
  deriving DecidableEq

/-- `Subject` from worker-api `business/Subject.ts` as described by the spec:
an ordered sequence of Meetings plus a stable course identifier and display
attributes. -/
structure Subject where
  courseId : String
  name : String
  meetings : List Meeting
  deriving DecidableEq

/-- Modelled from the spec: `compareLecture` (worker-api `business/Lecture.ts`
is not under `src/`).  The spec states equality is a full structural
field-by-field comparison, no partial or fuzzy matching. -/
def compareLecture (a b : Lecture) : Bool :=
  decide (a = b)

/-- Modelled from the spec: `compareMeeting` (worker-api `business/Meeting.ts`
is not under `src/`).  Full structural field comparison. -/
def compareMeeting (a b : Meeting) : Bool :=
  decide (a = b)

/-- The element type of the arrays built by `Worker.#getMeetingsDiff`: the
pushed objects reuse the new meeting's `subject`/`title` but carry only the
diffed lectures, and (per `#getLecturesDiff`) a diffed-lecture slot can hold
JS `undefined`, modelled as `none`. -/
structure MeetingDiff where
  subject : String
  title : String
  lectures : List (Option Lecture)
  deriving DecidableEq

/-- A wholly-new meeting is appended verbatim to the diff result; embedding a
real `Meeting` into the result element type. -/
def Meeting.toDiff (m : Meeting) : MeetingDiff :=
  ⟨m.subject, m.title, m.lectures.map some⟩

/-- The `for` loop of `Worker.#getLecturesDiff` (Worker.ts lines 73-79): it
iterates over every index of the OLD lecture list; `newMeeting.lectures[i]`
past the end of the new list is JS `undefined` (`none` here), compared unequal
to the old lecture and pushed as-is. -/
def getLecturesDiffLoop : List Lecture → List Lecture → List (Option Lecture)
  | [], _ => []
  | _ :: os, [] => none :: getLecturesDiffLoop os []
  | o :: os, n :: ns =>
      if compareLecture o n then getLecturesDiffLoop os ns
      else some n :: getLecturesDiffLoop os ns

/-- `Worker.#getLecturesDiff` (Worker.ts lines 64-82): lectures of `new` past
the old length are prepended verbatim (the `concat` happens before the loop
pushes), then the loop over old indices pushes each new lecture that is not
field-equal to its old counterpart. -/
def getLecturesDiff (oldMeeting newMeeting : Meeting) : List (Option Lecture) :=
  (if newMeeting.lectures.length > oldMeeting.lectures.length then
    (newMeeting.lectures.drop oldMeeting.lectures.length).map some
  else [])
  ++ getLecturesDiffLoop oldMeeting.lectures newMeeting.lectures

/-- The `for` loop of `Worker.#getMeetingsDiff` (Worker.ts lines 48-59),
iterating over `newSubject.meetings.slice(0, oldLength)` paired positionally
with the old meetings; a pair is skipped when `compareMeeting` holds AND the
lectures diff is empty, otherwise a reduced meeting carrying only the diffed
lectures is pushed. -/
def getMeetingsDiffLoop : List Meeting → List Meeting → List MeetingDiff
  | o :: os, n :: ns =>
      if compareMeeting n o = true ∧ (getLecturesDiff o n).length < 1 then
        getMeetingsDiffLoop os ns
      else
        ⟨n.subject, n.title, getLecturesDiff o n⟩ :: getMeetingsDiffLoop os ns
  | _, _ => []

/-- `Worker.#getMeetingsDiff` (Worker.ts lines 38-62): meetings of `new` at
indices `>= oldLength` are concatenated to the result FIRST, then the loop over
the shared prefix pushes the changed meetings. -/
def getMeetingsDiff (oldSubject newSubject : Subject) : List MeetingDiff :=
  (if newSubject.meetings.length > oldSubject.meetings.length then
    (newSubject.meetings.drop oldSubject.meetings.length).map Meeting.toDiff
  else [])
  ++ getMeetingsDiffLoop oldSubject.meetings
      (newSubject.meetings.take oldSubject.meetings.length)

/-- Spec-side reformulation of one iteration of the `#getMeetingsDiff` loop,
used to characterise the result's ordering: the pair is `(new meeting, old
meeting)` at a shared index. -/
def changedEntry (p : Meeting × Meeting) : Option MeetingDiff :=
  if compareMeeting p.1 p.2 = true ∧ (getLecturesDiff p.2 p.1).length < 1 then
    none
  else
    some ⟨p.1.subject, p.1.title, getLecturesDiff p.2 p.1⟩

/-! ### Worker.handle, per-Subject task (Worker.ts lines 91-132)

The storage, webhook and logger are external collaborators; the calls the task
makes to them are recorded as an ordered event list.  `JSON.parse`/`stringify`
round-tripping is abstracted away: the store yields the parsed old `Subject`
(or `none` for a stored JSON `null`), and the persisted value is recorded as
the `Subject` itself. -/

/-- The payload of `webhook.notify({...subject, meetings: meetingsDiff})`: the
subject's fields with `meetings` replaced by the diff. -/
structure SubjectNotif where
  courseId : String
  name : String
  meetings : List MeetingDiff
  deriving DecidableEq

/-- One collaborator call made by the per-Subject task. -/
inductive Event where
  | logError (msg : String)
  | webhookError (msg : String)
  | webhookNotify (payload : SubjectNotif)
  | storagePut (key : String) (value : Subject)
  deriving DecidableEq

/-- Whether an event is a storage `put`. -/
def Event.isPut : Event → Bool
  | .storagePut _ _ => true
  | _ => false

/-- Outcome of `HYSBYSU_STORAGE.get(subject_<courseId>)`: the store throws an
`Error` with a message, returns `null` (no prior snapshot), or returns a
stored string parsing to a `Subject` (or to JSON `null`). -/
inductive LookupResult where
  | threw (msg : String)
  | missing
  | found (old : Option Subject)
  deriving DecidableEq

/-- Outcome of `webhook.notify`: returns, or throws an `Error` (which rejects
the per-Subject task, since the notify call is not inside a `try`). -/
inductive NotifyResult where
  | ok
  | threw (msg : String)
  deriving DecidableEq

/-- Outcome of `HYSBYSU_STORAGE.put`: returns, or throws an `Error` (caught by
the surrounding `try`). -/
inductive PutResult where
  | ok
  | threw (msg : String)
  deriving DecidableEq

/-- The message built at Worker.ts line 101. -/
def getFailMsg (courseId msg : String) : String :=
  "Failed to get old data for: " ++ courseId ++ ". Reason: " ++ msg

/-- The message built at Worker.ts line 128. -/
def putFailMsg (courseId msg : String) : String :=
  "Failed to save new data for: " ++ courseId ++ ". Reason: " ++ msg

/-- The body of the per-Subject arrow function inside `Worker.handle`
(Worker.ts lines 91-132), as a function of the collaborator outcomes.  Returns
the ordered list of collaborator calls made, and `some msg` when the task's
promise rejects (only possible from `webhook.notify` throwing, the one await
outside a `try`).  Mirrored control flow:
* a lookup throw is caught: log, `webhook.error`, `oldSubjectString` stays
  `null`;
* line 105: `if (oldSubjectString === null) return;` — an early return that
  skips BOTH the diff step and the persistence step;
* the diff/notify block runs only if both subjects have meetings and the
  parsed old subject is not `null`;
* the `put` is wrapped in its own `try`: a throw is caught, logged and
  reported. -/
def handleSubjectTask (subject : Subject) (lookup : LookupResult)
    (notifyRes : NotifyResult) (putRes : PutResult) :
    List Event × Option String :=
  match lookup with
  | .threw msg =>
      ([.logError msg, .webhookError (getFailMsg subject.courseId msg)], none)
  | .missing => ([], none)
  | .found oldOpt =>
      let notifyStep : List Event × Option String :=
        match oldOpt with
        | some oldSubject =>
            if subject.meetings.length > 0 ∧ oldSubject.meetings.length > 0 then
              let meetingsDiff := getMeetingsDiff oldSubject subject
              if meetingsDiff.length > 0 then
                match notifyRes with
                | .ok =>
                    ([.webhookNotify ⟨subject.courseId, subject.name, meetingsDiff⟩],
                      none)
                | .threw m => ([], some m)
              else ([], none)
            else ([], none)
        | none => ([], none)
      match notifyStep with
      | (evs, some m) => (evs, some m)
      | (evs, none) =>
          match putRes with
          | .ok =>
              (evs ++ [.storagePut ("subject_" ++ subject.courseId) subject], none)
          | .threw m =>
              (evs ++ [.logError m, .webhookError (putFailMsg subject.courseId m)],
                none)

/-- The fan-out over collected subjects (Worker.ts line 91): one independent
task per Subject. -/
def handleTasks (subjects : List Subject) (lookup : Subject → LookupResult)
    (notifyRes : Subject → NotifyResult) (putRes : Subject → PutResult) :
    List (List Event × Option String) :=
  subjects.map fun s => handleSubjectTask s (lookup s) (notifyRes s) (putRes s)

/-! ### Scraper (browser acquisition) -/

/-- `ScraperOptions` from the Scraper source. -/
structure ScraperOptions where
  siakadUrl : String
  lmsUrl : String
  nim : String
  password : String
  deriving DecidableEq

/-- The two error classes the Scraper throws: `NotInitializedError` carrying
the missing resource's name, and `ValidationError` carrying the offending
option's name. -/
inductive ScraperError where
  | notInit (resource : String)
  | invalidOption (field : String)
  deriving DecidableEq

/-- Selector constant `USERNAME_INPUT`. -/
def USERNAME_INPUT : String := "input[name=\"username\"]"

/-- Selector constant `PASSWORD_INPUT`. -/
def PASSWORD_INPUT : String := "input[name=\"password\"]"

/-- Selector constant `LOGIN_BUTTON`. -/
def LOGIN_BUTTON : String := "button[type=\"submit\"]"

/-- The `Scraper` constructor (validation part).  The source checks each
required option in order and throws `ValidationError(<field>)` on the first
empty one; after the checks it only assigns fields — it invokes no browser,
storage or collector operation, so the model is a pure function. -/
def scraperConstructor (o : ScraperOptions) : Except ScraperError ScraperOptions :=
  if o.siakadUrl.length = 0 then .error (.invalidOption "siakadUrl")
  else if o.lmsUrl.length = 0 then .error (.invalidOption "lmsUrl")
  else if o.nim.length = 0 then .error (.invalidOption "nim")
  else if o.password.length = 0 then .error (.invalidOption "password")
  else .ok o

/-- A page/network operation a Scraper method can perform. -/
inductive PageOp where
  | visit (url : String)
  | insert (selector value : String)
  | clickButton (selector : String) (useNativeClick : Bool)
  deriving DecidableEq

/-- `Scraper.login`: with no page handle it throws
`NotInitializedError("this._page")` before any page operation; otherwise it
visits the portal, fills both credential fields and submits. -/
def login (o : ScraperOptions) (page : Option Unit) :
    Except ScraperError (List PageOp) :=
  match page with
  | none => .error (.notInit "this._page")
  | some _ =>
      .ok [PageOp.visit o.siakadUrl,
        PageOp.insert USERNAME_INPUT o.nim,
        PageOp.insert PASSWORD_INPUT o.password,
        PageOp.clickButton LOGIN_BUTTON false]

/-- JS `url.slice(-4)`: the last 4 characters (the whole string when it is
shorter). -/
def jsSliceLast4 (s : String) : String :=
  String.mk (s.data.drop (s.length - 4))

/-- The per-URL storage writes of `Scraper.savePageSnapshots`: for each
discovered `url` a fresh page visits `lmsUrl + url`, its content is read,
handed to the collector, and `JSON.stringify` of the COLLECTED meetings (not
the raw content) is stored under `` `${timestamp}_${url.slice(-4)}` ``.  The
browser mechanics are abstracted into `getContent`; the collector and
`JSON.stringify` are external collaborators passed as functions. -/
def savePageSnapshots (lmsUrl timestamp : String) (urls : List String)
    (getContent : String → String) (collect : String → List Meeting)
    (stringify : List Meeting → String) : List (String × String) :=
  urls.map fun url =>
    (timestamp ++ "_" ++ jsSliceLast4 url,
      stringify (collect (getContent (lmsUrl ++ url))))

/-! ### Concrete fixtures used by counterexamples and witnesses -/

/-- A lecture fixture. -/
def lec1 : Lecture := ⟨"Week 1", "https://lms/w1"⟩

/-- The same lecture retitled. -/
def lec1r : Lecture := ⟨"Week 1 (updated)", "https://lms/w1"⟩

/-- A second lecture fixture. -/
def lec2 : Lecture := ⟨"Week 2", "https://lms/w2"⟩

/-- Old meeting at index 0. -/
def meet0 : Meeting := ⟨"CS", "Meeting 0", [lec1]⟩

/-- The meeting at index 0 with a changed title. -/
def meet0c : Meeting := ⟨"CS", "Meeting 0 (moved)", [lec1]⟩

/-- A wholly-new meeting appearing at index 1. -/
def meet1 : Meeting := ⟨"CS", "Meeting 1", [lec2]⟩

/-- Old subject fixture: one meeting. -/
def subjOld : Subject := ⟨"CS101", "Computer Science", [meet0]⟩

/-- New subject fixture: the index-0 meeting changed and a new meeting
appended. -/
def subjNew : Subject := ⟨"CS101", "Computer Science", [meet0c, meet1]⟩

/-- A subject fixture for the Worker.handle scenarios. -/
def cs101 : Subject := ⟨"CS101", "Computer Science", [meet0]⟩

/-! ### Diff-engine lemmas -/

theorem compareLecture_self (a : Lecture) : compareLecture a a = true := by
  simp [compareLecture]

theorem compareMeeting_self (m : Meeting) : compareMeeting m m = true := by
  simp [compareMeeting]

theorem getLecturesDiffLoop_self (l : List Lecture) :
    getLecturesDiffLoop l l = [] := by
  induction l with
  | nil => rfl
  | cons o os ih => simp [getLecturesDiffLoop, compareLecture_self, ih]

theorem getLecturesDiff_self (m : Meeting) : getLecturesDiff m m = [] := by
  simp [getLecturesDiff, getLecturesDiffLoop_self]

theorem getMeetingsDiffLoop_self (l : List Meeting) :
    getMeetingsDiffLoop l l = [] := by
  induction l with
  | nil => rfl
  | cons m ms ih =>
      simp [getMeetingsDiffLoop, compareMeeting_self, getLecturesDiff_self, ih]

/-- The lecture loop on positionally-equal lists of equal length produces
nothing. -/
theorem getLecturesDiffLoop_eq_nil (os ns : List Lecture)
    (hlen : os.length = ns.length)
    (hsame : ∀ i, os.get? i = ns.get? i) :
    getLecturesDiffLoop os ns = [] := by
  have : os = ns := List.ext_get? hsame
  subst this
  exact getLecturesDiffLoop_self os

/-- The lecture loop never produces a `none` entry while the new list still
has elements, and produces exactly one `none` per old index past the new
length. -/
theorem getLecturesDiffLoop_count_none (os ns : List Lecture) :
    (getLecturesDiffLoop os ns).count (none : Option Lecture)
      = os.length - ns.length := by
  induction os generalizing ns with
  | nil => simp [getLecturesDiffLoop]
  | cons o os ih =>
      cases ns with
      | nil =>
          simp [getLecturesDiffLoop, List.count_cons, ih]
      | cons n ns =>
          by_cases h : compareLecture o n
          · simp [getLecturesDiffLoop, h, ih]
          · simp [getLecturesDiffLoop, h, List.count_cons, ih]

/-- The lecture loop when exactly one shared index differs: every other index
agrees, index `k` holds `lk` in the new list and something else in the old
list. -/
theorem getLecturesDiffLoop_single (os : List Lecture) :
    ∀ (ns : List Lecture) (k : Nat) (lk : Lecture),
      os.length = ns.length → ns.get? k = some lk → os.get? k ≠ some lk →
      (∀ i, i ≠ k → os.get? i = ns.get? i) →
      getLecturesDiffLoop os ns = [some lk] := by
  induction os with
  | nil =>
      intro ns k lk hlen hk _ _
      cases ns with
      | nil => simp at hk
      | cons n ns => simp at hlen
  | cons o os ih =>
      intro ns k lk hlen hk hneq hsame
      cases ns with
      | nil => simp at hlen
      | cons n ns =>
          cases k with
          | zero =>
              have hn : n = lk := by simpa using hk
              subst hn
              have ho : o ≠ n := by
                intro he
                exact hneq (by simp [he])
              have hcmp : compareLecture o n = false := by
                simp [compareLecture]
                exact ho
              have htail : getLecturesDiffLoop os ns = [] := by
                refine getLecturesDiffLoop_eq_nil os ns (by simpa using hlen) ?_
                intro i
                have := hsame (i + 1) (by simp)
                simpa using this
              simp [getLecturesDiffLoop, hcmp, htail]
          | succ s =>
              have hhead : o = n := by
                have := hsame 0 (by simp)
                simpa using this
              have hcmp : compareLecture o n = true := by
                simp [compareLecture, hhead]
              have htail : getLecturesDiffLoop os ns = [some lk] := by
                refine ih ns s lk (by simpa using hlen) (by simpa using hk)
                  (by simpa using hneq) ?_
                intro i hi
                have := hsame (i + 1) (by simpa using hi)
                simpa using this
              simp [getLecturesDiffLoop, hcmp, htail]

/-- The meetings loop is the order-preserving `filterMap` of `changedEntry`
over the positional pairing of the (sliced) new meetings with the old
meetings. -/
theorem getMeetingsDiffLoop_eq_filterMap (os : List Meeting) :
    ∀ ns : List Meeting,
      getMeetingsDiffLoop os ns = (ns.zip os).filterMap changedEntry := by
  induction os with
  | nil => intro ns; cases ns <;> simp [getMeetingsDiffLoop]
  | cons o os ih =>
      intro ns
      cases ns with
      | nil => simp [getMeetingsDiffLoop]
      | cons n ns =>
          by_cases h : compareMeeting n o = true ∧ (getLecturesDiff o n).length < 1
          · have hc : changedEntry (n, o) = none := by
              simp only [changedEntry]
              exact if_pos h
            simp only [getMeetingsDiffLoop, if_pos h, List.zip_cons_cons,
              List.filterMap_cons, hc]
            exact ih ns
          · have hc : changedEntry (n, o)
                = some ⟨n.subject, n.title, getLecturesDiff o n⟩ := by
              simp only [changedEntry]
              exact if_neg h
            simp only [getMeetingsDiffLoop, if_neg h, List.zip_cons_cons,
              List.filterMap_cons, hc]
            rw [ih ns]

/-! ### The claims -/

/-- C6: `diffSubjects(s, s)` — the meetings diff of a Subject against an
identical copy of itself — is the empty sequence. -/
theorem c6_diff_self_empty (s : Subject) : getMeetingsDiff s s = [] := by
  simp [getMeetingsDiff, List.take_length, getMeetingsDiffLoop_self]

/-- C5: when `new.meetings` extends `old.meetings` by appending `ap` (same
leading meetings, no inner changes), the meetings diff is exactly the appended
meetings, unmodified (embedded verbatim), and its length is
`new.meetings.length - old.meetings.length`. -/
theorem c5_appended_meetings (oldS newS : Subject) (ap : List Meeting)
    (h : newS.meetings = oldS.meetings ++ ap) :
    getMeetingsDiff oldS newS = ap.map Meeting.toDiff ∧
      (getMeetingsDiff oldS newS).length
        = newS.meetings.length - oldS.meetings.length := by
  have hmain : getMeetingsDiff oldS newS = ap.map Meeting.toDiff := by
    unfold getMeetingsDiff
    rw [h, List.take_left, List.drop_left, getMeetingsDiffLoop_self]
    cases ap with
    | nil => simp
    | cons a as =>
        rw [if_pos (by simp [List.length_append])]
        simp
  refine ⟨hmain, ?_⟩
  rw [hmain, h]
  simp [List.length_append]

/-- C5 witness: a concrete prefix-extension (one appended meeting). -/
theorem c5_appended_meetings_witness :
    getMeetingsDiff subjOld ⟨"CS101", "Computer Science", [meet0, meet1]⟩
        = [Meeting.toDiff meet1] ∧
      (getMeetingsDiff subjOld ⟨"CS101", "Computer Science", [meet0, meet1]⟩).length
        = (⟨"CS101", "Computer Science", [meet0, meet1]⟩ : Subject).meetings.length
            - subjOld.meetings.length := by
  have := c5_appended_meetings subjOld
    ⟨"CS101", "Computer Science", [meet0, meet1]⟩ [meet1] (by rfl)
  simpa using this

/-- C7: when the two lecture lists have the same length (forced by "all other
lectures are field-equal": unmatched positions have no equal counterpart) and
exactly index `k` differs, the lectures diff is exactly the new list's lecture
at `k`. -/
theorem c7_single_lecture_change (oldM newM : Meeting) (k : Nat) (lk : Lecture)
    (hlen : oldM.lectures.length = newM.lectures.length)
    (hk : newM.lectures.get? k = some lk)
    (hneq : oldM.lectures.get? k ≠ some lk)
    (hsame : ∀ i, i ≠ k → oldM.lectures.get? i = newM.lectures.get? i) :
    getLecturesDiff oldM newM = [some lk] := by
  have hif : ¬ (newM.lectures.length > oldM.lectures.length) := by omega
  simp only [getLecturesDiff, hif, if_neg, List.nil_append, if_false]
  exact getLecturesDiffLoop_single oldM.lectures newM.lectures k lk hlen hk hneq
    hsame

/-- C7 witness: two-lecture meetings differing exactly at index 0. -/
theorem c7_single_lecture_change_witness :
    getLecturesDiff ⟨"CS", "M", [lec1, lec2]⟩ ⟨"CS", "M", [lec1r, lec2]⟩
      = [some lec1r] := by
  refine c7_single_lecture_change ⟨"CS", "M", [lec1, lec2]⟩
    ⟨"CS", "M", [lec1r, lec2]⟩ 0 lec1r (by rfl) (by rfl) (by decide) ?_
  intro i hi
  cases i with
  | zero => exact absurd rfl hi
  | succ j => rfl

/-- C10: when the new meeting has strictly fewer lectures, the lectures-diff
loop still walks every old index; each read past the end of the new list
yields the absent value (JS `undefined`), which compares unequal and is pushed
into the result.  The result therefore contains exactly
`oldLen - newLen` absent entries — entries that are not Lectures of `new`. -/
theorem c10_out_of_range_reads (oldM newM : Meeting)
    (h : newM.lectures.length < oldM.lectures.length) :
    (getLecturesDiff oldM newM).count (none : Option Lecture)
        = oldM.lectures.length - newM.lectures.length ∧
      (none : Option Lecture) ∈ getLecturesDiff oldM newM := by
  have hif : ¬ (newM.lectures.length > oldM.lectures.length) := by omega
  have h1 : getLecturesDiff oldM newM
      = getLecturesDiffLoop oldM.lectures newM.lectures := by
    simp [getLecturesDiff, hif]
  have hcount := getLecturesDiffLoop_count_none oldM.lectures newM.lectures
  refine ⟨by rw [h1]; exact hcount, ?_⟩
  rw [h1]
  have hpos : 0 < (getLecturesDiffLoop oldM.lectures newM.lectures).count
      (none : Option Lecture) := by omega
  exact List.count_pos_iff.mp hpos

/-- C10 witness: old has two lectures, new has one. -/
theorem c10_out_of_range_reads_witness :
    (getLecturesDiff ⟨"CS", "M", [lec1, lec2]⟩ ⟨"CS", "M", [lec1]⟩).count
        (none : Option Lecture) = 2 - 1 ∧
      (none : Option Lecture)
        ∈ getLecturesDiff ⟨"CS", "M", [lec1, lec2]⟩ ⟨"CS", "M", [lec1]⟩ := by
  have := c10_out_of_range_reads ⟨"CS", "M", [lec1, lec2]⟩ ⟨"CS", "M", [lec1]⟩
    (by decide)
  simpa using this

/-- A string has length 0 iff it is empty (helper for the constructor
validation claim). -/
theorem str_length_eq_zero_iff (s : String) : s.length = 0 ↔ s = "" := by
  constructor
  · intro h
    cases s with
    | mk data =>
        simp [String.length] at h
        subst h
        rfl
  · intro h
    subst h
    rfl

/-- C3 counterexample: old has one meeting, new changes it AND appends a new
meeting.  The wholly-new meeting (index 1 ≥ oldLen) appears FIRST in the diff
result, and the changed meeting (index 0 < oldLen) after it — the changed
meeting does not precede the wholly-new one. -/
theorem c3_counterexample :
    getMeetingsDiff subjOld subjNew
        = [Meeting.toDiff meet1, ⟨"CS", "Meeting 0 (moved)", []⟩] ∧
      (getMeetingsDiff subjOld subjNew).indexOf (Meeting.toDiff meet1)
        < (getMeetingsDiff subjOld subjNew).indexOf
            (⟨"CS", "Meeting 0 (moved)", []⟩ : MeetingDiff) := by
  constructor
  · rfl
  · decide

/-- C3 (amended): the meetings diff lists the wholly-new meetings (indices
`>= old.meetings.length`, taken verbatim, in ascending index order) FIRST,
followed by the changed shared-index meetings in ascending index order. -/
theorem c3_new_meetings_first (oldS newS : Subject) :
    getMeetingsDiff oldS newS
      = (newS.meetings.drop oldS.meetings.length).map Meeting.toDiff
        ++ ((newS.meetings.take oldS.meetings.length).zip
              oldS.meetings).filterMap changedEntry := by
  unfold getMeetingsDiff
  rw [getMeetingsDiffLoop_eq_filterMap]
  by_cases h : newS.meetings.length > oldS.meetings.length
  · rw [if_pos h]
  · rw [if_neg h]
    rw [List.drop_eq_nil_of_le (by omega)]
    simp

/-- C1: when the storage lookup throws for `cs101`, the task logs the error
and dispatches an error-notification containing `"CS101"`, and skips the diff
step — but, contrary to the claim, it also returns at Worker.ts line 105
WITHOUT persisting the new Subject: no `put` event occurs. -/
theorem c1_lookup_failure_skips_persist :
    handleSubjectTask cs101 (.threw "kv unavailable") .ok .ok
        = ([.logError "kv unavailable",
            .webhookError
              "Failed to get old data for: CS101. Reason: kv unavailable"],
          none)
      ∧ ((handleSubjectTask cs101 (.threw "kv unavailable") .ok .ok).1.filter
          Event.isPut) = [] := by
  exact ⟨rfl, rfl⟩

/-- C2: on the first run for a Subject (`get` returns `null`, no prior
snapshot) the task returns at Worker.ts line 105 making NO collaborator call
at all — in particular no `put`, so the claimed "first successful collection
creates the snapshot" never happens. -/
theorem c2_first_run_skips_persist :
    handleSubjectTask cs101 .missing .ok .ok = ([], none) := rfl

/-- C8: calling `login()` with no page handle raises the not-initialized
error naming `this._page` and performs no page/network operation (the result
carries no operation list). -/
theorem c8_login_before_ready (o : ScraperOptions) :
    login o none = Except.error (ScraperError.notInit "this._page") := rfl

/-- C9: the Scraper constructor fails with a validation error iff at least one
of the four required options is the empty string.  (The source constructor
performs no I/O at all — after validation it only assigns fields — which is
why it is embedded as a pure function.) -/
theorem c9_ctor_validation (o : ScraperOptions) :
    (∃ f, scraperConstructor o
        = Except.error (ScraperError.invalidOption f))
      ↔ (o.siakadUrl = "" ∨ o.lmsUrl = "" ∨ o.nim = "" ∨ o.password = "") := by
  unfold scraperConstructor
  split_ifs with h1 h2 h3 h4 <;>
    simp_all [str_length_eq_zero_iff]

/-- C4 counterexample: with a page whose raw content is
`"<html>raw page</html>"` and a collector yielding no meetings, the value
persisted under `<timestamp>_<last4>` is the serialized collected meetings
`"[]"`, NOT the raw content. -/
theorem c4_counterexample :
    savePageSnapshots "https://lms" "1700000000000" ["/abcd"]
        (fun _ => "<html>raw page</html>") (fun _ => []) (fun _ => "[]")
      = [("1700000000000_abcd", "[]")]
    ∧ ("[]" : String) ≠ "<html>raw page</html>" := by
  exact ⟨rfl, by decide⟩

/-- C4 (amended): for every discovered URL, what is persisted under the key
`<runTimestamp>_<last4CharsOfUrl>` is the serialization of the Meetings the
collector extracts from the visited page's content (not the raw content
itself). -/
theorem c4_stores_collected (lmsUrl timestamp : String) (urls : List String)
    (getContent : String → String) (collect : String → List Meeting)
    (stringify : List Meeting → String) (url : String) (h : url ∈ urls) :
    (timestamp ++ "_" ++ jsSliceLast4 url,
        stringify (collect (getContent (lmsUrl ++ url))))
      ∈ savePageSnapshots lmsUrl timestamp urls getContent collect stringify :=
  List.mem_map_of_mem _ h

/-- C4 witness: one concrete URL. -/
theorem c4_stores_collected_witness :
    ("T_abcd", "[]")
      ∈ savePageSnapshots "T2" "T" ["/abcd"] (fun _ => "x") (fun _ => [])
          (fun _ => "[]") := by
  have h := c4_stores_collected "T2" "T" ["/abcd"] (fun _ => "x")
    (fun _ => []) (fun _ => "[]") "/abcd" (by simp)
  have he : (("T" ++ "_" ++ jsSliceLast4 "/abcd" : String), ("[]" : String))
      = (("T_abcd" : String), ("[]" : String)) := by decide
  rw [he] at h
  exact h

end BabuAbsen
